import Mathlib

/-!
Verification of the libmqtt-c session core (src/core/mqtt.c) against its
specification.  The C code is shallowly embedded: packets are lists of
byte values (Nat, each < 256 where produced by the code), machine-integer
arithmetic is modelled with explicit `% 2^w` where wraparound matters, and
the networked / OS side effects are supplied as explicit environment
parameters (send success, received bytes, clock reading).  Bit operations
of the C source on unsigned values are translated arithmetically:
`x >> n` becomes `x / 2^n`, `x & (2^n - 1)` becomes `x % 2^n`, and an OR
of disjoint bit fields becomes an addition; each definition notes the C
expression it models.
-/

set_option maxHeartbeats 1000000
set_option maxRecDepth 8192

namespace LibMqtt

/-- Fuel-indexed body of the C function encode_remaining_length
(mqtt.c lines 49-58).  The C do/while loop emits len % 128, sets the
continuation bit 0x80 when len / 128 is still positive (the byte is
< 128, so the OR with 0x80 is the addition of 128), and continues with
len / 128.  The fuel only serves to make the recursion structural; it is
always sufficient because the argument strictly decreases. -/
def encode_rl_fuel : Nat → Nat → List Nat
  | 0, _ => []
  | fuel + 1, len =>
    if 0 < len / 128 then (len % 128 + 128) :: encode_rl_fuel fuel (len / 128)
    else [len % 128]

/-- encode_remaining_length from mqtt.c: the list of bytes the encoder
writes into buf (the C function returns their count). -/
def encode_remaining_length (len : Nat) : List Nat :=
  encode_rl_fuel (len + 1) len

/-- The loop of decode_remaining_length (mqtt.c lines 60-71).  The C code
checks count >= 4 before reading each byte and returns -1 (here: none)
when the check fails; byte & 127 is byte % 128, and the continuation test
(byte & 0x80) != 0 is 128 <= byte for the byte values (< 256) the C type
guarantees.  Reading past the supplied bytes is modelled as none. -/
def decode_rl_loop : Nat → Nat → Nat → List Nat → Option (Nat × Nat)
  | _, _, _, [] => none
  | mult, acc, count, byte :: rest =>
    if 4 ≤ count then none
    else if 128 ≤ byte then
      decode_rl_loop (mult * 128) (acc + byte % 128 * mult) (count + 1) rest
    else some (acc + byte % 128 * mult, count + 1)

/-- decode_remaining_length from mqtt.c: on success returns the decoded
value together with the number of bytes consumed (the C return value). -/
def decode_remaining_length (buf : List Nat) : Option (Nat × Nat) :=
  decode_rl_loop 1 0 0 buf

lemma encode_rl_fuel_congr :
    ∀ len f g, len < f → len < g → encode_rl_fuel f len = encode_rl_fuel g len := by
  intro len
  induction len using Nat.strong_induction_on with
  | _ len ih =>
    intro f g hf hg
    cases f with
    | zero => omega
    | succ f =>
      cases g with
      | zero => omega
      | succ g =>
        simp only [encode_rl_fuel]
        by_cases h : 0 < len / 128
        · have hlt : len / 128 < len := by omega
          rw [if_pos h, if_pos h, ih (len / 128) hlt f g (by omega) (by omega)]
        · rw [if_neg h, if_neg h]

lemma encode_remaining_length_eq (len : Nat) :
    encode_remaining_length len =
      if 0 < len / 128 then
        (len % 128 + 128) :: encode_remaining_length (len / 128)
      else [len % 128] := by
  have hunf : encode_remaining_length len =
      if 0 < len / 128 then (len % 128 + 128) :: encode_rl_fuel len (len / 128)
      else [len % 128] := rfl
  rw [hunf]
  by_cases h : 0 < len / 128
  · rw [if_pos h, if_pos h]
    exact congrArg _
      (encode_rl_fuel_congr (len / 128) len (len / 128 + 1) (by omega) (by omega))
  · rw [if_neg h, if_neg h]

lemma encode_length_pos (v : Nat) : 0 < (encode_remaining_length v).length := by
  rw [encode_remaining_length_eq]
  by_cases h : 0 < v / 128 <;> simp [h]

/-- Decoding the encoder's output (followed by anything) consumes exactly
the encoded bytes and recovers the value, whenever the encoding fits in
the 4-byte budget left by count. -/
lemma decode_loop_of_encode (v : Nat) :
    ∀ (rest : List Nat) (mult acc count : Nat),
      count + (encode_remaining_length v).length ≤ 4 →
      decode_rl_loop mult acc count (encode_remaining_length v ++ rest)
        = some (acc + v * mult, count + (encode_remaining_length v).length) := by
  induction v using Nat.strong_induction_on with
  | _ v ih =>
    intro rest mult acc count hlen
    rw [encode_remaining_length_eq] at hlen ⊢
    by_cases h : 0 < v / 128
    · rw [if_pos h] at hlen ⊢
      have hcount : ¬ 4 ≤ count := by
        have := encode_length_pos (v / 128)
        simp only [List.length_cons] at hlen
        omega
      simp only [List.cons_append, decode_rl_loop, List.append_eq]
      rw [if_neg hcount, if_pos (by omega : 128 ≤ v % 128 + 128)]
      have hmod : (v % 128 + 128) % 128 = v % 128 := by omega
      rw [hmod]
      have hlt : v / 128 < v := by omega
      rw [ih (v / 128) hlt rest (mult * 128) (acc + v % 128 * mult) (count + 1)
        (by simp only [List.length_cons] at hlen; omega)]
      have harith : acc + v % 128 * mult + v / 128 * (mult * 128)
          = acc + (v % 128 + 128 * (v / 128)) * mult := by ring
      rw [harith, Nat.mod_add_div v 128]
      simp only [List.length_cons, Option.some.injEq, Prod.mk.injEq]
      exact ⟨trivial, by omega⟩
    · rw [if_neg h] at hlen ⊢
      have hv : v < 128 := by omega
      have hcount : ¬ 4 ≤ count := by
        simp only [List.length_cons, List.length_nil] at hlen
        omega
      simp only [List.cons_append, List.nil_append, decode_rl_loop, List.append_eq]
      rw [if_neg hcount, if_neg (by omega : ¬ 128 ≤ v % 128)]
      have hm : v % 128 % 128 = v := by omega
      rw [hm]
      simp only [List.length_cons, List.length_nil]

lemma encode_length_le :
    ∀ k v, v < 128 ^ (k + 1) → (encode_remaining_length v).length ≤ k + 1 := by
  intro k
  induction k with
  | zero =>
    intro v hv
    have hv' : v < 128 := by
      have : (128 : Nat) ^ 1 = 128 := by norm_num
      omega
    rw [encode_remaining_length_eq, if_neg (by omega : ¬ 0 < v / 128)]
    simp
  | succ k ih =>
    intro v hv
    rw [encode_remaining_length_eq]
    by_cases h : 0 < v / 128
    · rw [if_pos h]
      have hd : v / 128 < 128 ^ (k + 1) := by
        rw [Nat.div_lt_iff_lt_mul (by norm_num : (0:Nat) < 128)]
        calc v < 128 ^ (k + 1 + 1) := hv
          _ = 128 ^ (k + 1) * 128 := by ring
      have := ih (v / 128) hd
      simp only [List.length_cons]
      omega
    · rw [if_neg h]
      simp

lemma encode_length_gt :
    ∀ k v, 128 ^ (k + 1) ≤ v → k + 2 ≤ (encode_remaining_length v).length := by
  intro k
  induction k with
  | zero =>
    intro v hv
    have hv' : (128 : Nat) ≤ v := by
      have : (128 : Nat) ^ 1 = 128 := by norm_num
      omega
    rw [encode_remaining_length_eq, if_pos (by omega : 0 < v / 128)]
    have := encode_length_pos (v / 128)
    simp only [List.length_cons]
    omega
  | succ k ih =>
    intro v hv
    have h128 : (128 : Nat) ≤ v := by
      have h1 : (128 : Nat) ^ 1 ≤ 128 ^ (k + 1 + 1) :=
        Nat.pow_le_pow_right (by norm_num) (by omega)
      have h2 : (128 : Nat) ^ 1 = 128 := by norm_num
      omega
    rw [encode_remaining_length_eq, if_pos (by omega : 0 < v / 128)]
    have hd : 128 ^ (k + 1) ≤ v / 128 := by
      rw [Nat.le_div_iff_mul_le (by norm_num : (0:Nat) < 128)]
      calc 128 ^ (k + 1) * 128 = 128 ^ (k + 1 + 1) := by ring
        _ ≤ v := hv
    have := ih (v / 128) hd
    simp only [List.length_cons]
    omega

/-- When the value needs more than the remaining byte budget, the decoder
keeps seeing continuation bits and fails at the 4-byte limit. -/
lemma decode_loop_none_of_big :
    ∀ (fuel : Nat) (v : Nat) (rest : List Nat) (mult acc count : Nat),
      count + fuel = 4 → 128 ^ fuel ≤ v →
      decode_rl_loop mult acc count (encode_remaining_length v ++ rest) = none := by
  intro fuel
  induction fuel with
  | zero =>
    intro v rest mult acc count hc hv
    rw [encode_remaining_length_eq]
    by_cases h : 0 < v / 128
    · rw [if_pos h]
      simp only [List.cons_append, decode_rl_loop, List.append_eq]
      rw [if_pos (by omega : 4 ≤ count)]
    · rw [if_neg h]
      simp only [List.cons_append, List.nil_append, decode_rl_loop, List.append_eq]
      rw [if_pos (by omega : 4 ≤ count)]
  | succ fuel ih =>
    intro v rest mult acc count hc hv
    have h128 : (128 : Nat) ≤ v := by
      have h1 : (128 : Nat) ^ 1 ≤ 128 ^ (fuel + 1) :=
        Nat.pow_le_pow_right (by norm_num) (by omega)
      have h2 : (128 : Nat) ^ 1 = 128 := by norm_num
      omega
    rw [encode_remaining_length_eq, if_pos (by omega : 0 < v / 128)]
    simp only [List.cons_append, decode_rl_loop, List.append_eq]
    rw [if_neg (by omega : ¬ 4 ≤ count), if_pos (by omega : 128 ≤ v % 128 + 128)]
    exact ih (v / 128) rest _ _ (count + 1) (by omega) (by
      rw [Nat.le_div_iff_mul_le (by norm_num : (0:Nat) < 128)]
      calc 128 ^ fuel * 128 = 128 ^ (fuel + 1) := by ring
        _ ≤ v := hv)

/-- C2: for every value v with 0 ≤ v ≤ 268435455, decoding the bytes
produced by encode_remaining_length yields v back (consuming exactly the
encoded bytes), and every larger value is rejected: its encoding needs
more than 4 bytes, and decoding it fails because the fourth byte still
carries the continuation bit. -/
theorem remaining_length_roundtrip (v : Nat) :
    (v ≤ 268435455 →
      decode_remaining_length (encode_remaining_length v)
        = some (v, (encode_remaining_length v).length)) ∧
    (268435455 < v →
      4 < (encode_remaining_length v).length ∧
        decode_remaining_length (encode_remaining_length v) = none) := by
  constructor
  · intro hv
    have hpow : (128 : Nat) ^ 4 = 268435456 := by norm_num
    have hlen : (encode_remaining_length v).length ≤ 4 :=
      encode_length_le 3 v (by omega)
    unfold decode_remaining_length
    have h := decode_loop_of_encode v [] 1 0 0 (by omega)
    simpa using h
  · intro hv
    have hpow : (128 : Nat) ^ 4 = 268435456 := by norm_num
    constructor
    · have := encode_length_gt 3 v (by omega)
      omega
    · unfold decode_remaining_length
      have h := decode_loop_none_of_big 4 v [] 1 0 0 (by omega) (by omega)
      simpa using h

/-- Witness for C2 at the boundary values. -/
theorem remaining_length_roundtrip_witness :
    decode_remaining_length (encode_remaining_length 268435455)
      = some (268435455, (encode_remaining_length 268435455).length) ∧
    4 < (encode_remaining_length 268435456).length :=
  ⟨(remaining_length_roundtrip 268435455).1 (by norm_num),
   ((remaining_length_roundtrip 268435456).2 (by norm_num)).1⟩

/-- Connection state from the mqtt_state_t enum in mqtt.h. -/
inductive MqttState where
  | disconnected
  | connected
deriving DecidableEq, Repr

/-- The configuration fields of mqtt_config_t that the session core reads.
Strings (client_id, username, password) are byte lists; NULL username and
password pointers are none.  The message callback and the transport-level
fields are external collaborators and are not part of the embedded state. -/
structure MqttConfig where
  client_id : List Nat
  username : Option (List Nat)
  password : Option (List Nat)
  keepalive : Nat
  clean_session : Bool
deriving DecidableEq, Repr

/-- The mutable fields of mqtt_client_t that the session core manipulates.
The socket is none exactly when the C socket pointer is NULL; OS handles
(mutex, semaphore) always exist on a constructed client and are omitted;
the recv_thread handle is kept as a Bool.  The subscription registry is
the prefix subscriptions[0..sub_count) as a list of (topic bytes, qos). -/
structure MqttClient where
  config : MqttConfig
  socket : Option Nat
  state : MqttState
  packet_id : Nat
  last_ping_time : Nat
  ping_sent_time : Nat
  waiting_pingresp : Bool
  subscriptions : List (List Nat × Nat)
  running : Bool
  recv_thread : Bool
deriving DecidableEq, Repr

/-- client->packet_id++ on the uint16_t counter: the allocated id is the
old value, the stored counter becomes (old + 1) mod 2^16. -/
def packet_id_succ (pid : Nat) : Nat :=
  (pid + 1) % 65536

/-- The packet id allocated by the (n+1)-th allocation on a fresh client,
whose counter starts at MQTT_INITIAL_PACKET_ID = 1. -/
def nth_packet_id (n : Nat) : Nat :=
  packet_id_succ^[n] 1

/-- pack_connect (mqtt.c lines 73-125).  The connect-flags byte ORs the
disjoint bits 0x02 (clean session), 0x80 (username present) and 0x40
(password present), here written as a sum; 2-byte big-endian lengths are
len / 256 and len % 256 (the C shifts and masks on uint8_t stores). -/
def pack_connect (cfg : MqttConfig) : List Nat :=
  let cid_len := cfg.client_id.length
  let payload_len := 2 + cid_len
    + (match cfg.username with | some u => 2 + u.length | none => 0)
    + (match cfg.password with | some p => 2 + p.length | none => 0)
  let flags := (if cfg.clean_session then 2 else 0)
    + (if cfg.username.isSome then 128 else 0)
    + (if cfg.password.isSome then 64 else 0)
  let remaining := 10 + payload_len
  16 :: (encode_remaining_length remaining
    ++ [0, 4, 77, 81, 84, 84, 4, flags,
        cfg.keepalive / 256 % 256, cfg.keepalive % 256,
        cid_len / 256 % 256, cid_len % 256]
    ++ cfg.client_id
    ++ (match cfg.username with
        | some u => [u.length / 256 % 256, u.length % 256] ++ u
        | none => [])
    ++ (match cfg.password with
        | some p => [p.length / 256 % 256, p.length % 256] ++ p
        | none => []))

/-- pack_publish (mqtt.c lines 127-155).  The first byte is
(MQTT_PUBLISH << 4) | (qos << 1) = 48 + qos * 2 (the bit fields are
disjoint for the qos values 0/1 the client supports); the packet id is
appended only for qos > 0. -/
def pack_publish (topic payload : List Nat) (qos packet_id : Nat) : List Nat :=
  let topic_len := topic.length
  let remaining := 2 + topic_len + payload.length + (if 0 < qos then 2 else 0)
  (48 + qos * 2) :: (encode_remaining_length remaining
    ++ [topic_len / 256 % 256, topic_len % 256]
    ++ topic
    ++ (if 0 < qos then [packet_id / 256 % 256, packet_id % 256] else [])
    ++ payload)

/-- pack_subscribe (mqtt.c lines 157-178).  The first byte is
(MQTT_SUBSCRIBE << 4) | MQTT_SUBSCRIBE_FLAGS = 130; remaining length is
packet id (2) + topic length field (2) + topic + requested qos (1). -/
def pack_subscribe (topic : List Nat) (qos packet_id : Nat) : List Nat :=
  let topic_len := topic.length
  let remaining := 2 + 2 + topic_len + 1
  130 :: (encode_remaining_length remaining
    ++ [packet_id / 256 % 256, packet_id % 256,
        topic_len / 256 % 256, topic_len % 256]
    ++ topic
    ++ [qos % 256])

/-- pack_pingreq (mqtt.c lines 180-184): MQTT_PINGREQ << 4 = 192. -/
def pack_pingreq : List Nat :=
  [192, 0]

/-- pack_disconnect (mqtt.c lines 186-190): MQTT_DISCONNECT << 4 = 224. -/
def pack_disconnect : List Nat :=
  [224, 0]

/-- The CONNACK acceptance test shared by mqtt_client_create (line 221)
and mqtt_try_reconnect (line 338): the C code fails unless
recv_len >= MQTT_CONNACK_MIN_LEN (4), the high nibble of byte 0 is
MQTT_CONNACK (2), and byte MQTT_CONNACK_RC_OFFSET (3) is 0. -/
def connack_ok (recv_len : Int) (buf : List Nat) : Bool :=
  4 ≤ recv_len && buf.getD 0 0 / 16 == 2 && buf.getD 3 0 == 0

/-- Body of mqtt_handle_publish (mqtt.c lines 403-424) after the offset
past the fixed header is known.  Topic length is
(recv_buf[offset] << 8) | recv_buf[offset+1] on uint8_t reads, i.e.
hi * 256 + lo; topics of 128 bytes or more are rejected (the 128-byte
stack buffer); qos is (recv_buf[0] >> 1) & 3; if qos > 0 two packet-id
bytes are skipped; the payload is the len - offset bytes that follow.
The result is the (topic, payload) pair handed to the msg_cb callback,
or none when the function returns without invoking it.  The C code reads
recv_buf through pointers; reads past the supplied bytes yield 0 here,
and payload_len = len - offset is the C value whenever len >= offset. -/
def mqtt_handle_publish_body (buf : List Nat) (len offset : Nat) :
    Option (List Nat × List Nat) :=
  let topic_len := (buf.drop offset).getD 0 0 * 256 + (buf.drop offset).getD 1 0
  let offset := offset + 2
  if 128 ≤ topic_len then none
  else
    let topic := (buf.drop offset).take topic_len
    let offset := offset + topic_len
    let qos := buf.getD 0 0 / 2 % 4
    let offset := offset + (if 0 < qos then 2 else 0)
    some (topic, (buf.drop offset).take (len - offset))

/-- mqtt_handle_publish (mqtt.c lines 403-424), assuming a message
callback is configured (line 404 returns immediately otherwise).  The C
code computes offset = 1 + decode_remaining_length(recv_buf + 1, ...)
without checking the -1 failure return, so a failed decode continues
with offset 0. -/
def mqtt_handle_publish (buf : List Nat) (len : Nat) :
    Option (List Nat × List Nat) :=
  match decode_remaining_length (buf.drop 1) with
  | some (_, cnt) => mqtt_handle_publish_body buf len (1 + cnt)
  | none => mqtt_handle_publish_body buf len 0

/-- Unsigned 32-bit subtraction a - b as used for the elapsed-time
computations in mqtt_send_ping (both operands are uint32_t). -/
def sub32 (a b : Nat) : Nat :=
  (a + 2 ^ 32 - b) % 2 ^ 32

/-- mqtt_send_ping (mqtt.c lines 362-401).  Inputs: the client, the
now = os->get_time_ms() reading, and whether net->send wrote the whole
PINGREQ (sendOk).  Output: the updated client, the C return value, and
the list of packets handed to net->send.  keepalive_ms is
config.keepalive * MQTT_MS_PER_SECOND and the threshold is
keepalive_ms / MQTT_KEEPALIVE_DIVISOR = keepalive_ms / 2. -/
def mqtt_send_ping (sendOk : Bool) (c : MqttClient) (now : Nat) :
    MqttClient × Int × List (List Nat) :=
  let keepalive_ms := c.config.keepalive * 1000
  if c.waiting_pingresp then
    if keepalive_ms / 2 ≤ sub32 now c.ping_sent_time then
      ({ c with
          state := .disconnected
          waiting_pingresp := false
          socket := none }, -1, [])
    else (c, 0, [])
  else if sub32 now c.last_ping_time < keepalive_ms / 2 then (c, 0, [])
  else if sendOk then
    ({ c with ping_sent_time := now, waiting_pingresp := true }, 0,
      [pack_pingreq])
  else
    ({ c with state := .disconnected, socket := none }, -1, [pack_pingreq])

/-- mqtt_client_publish (mqtt.c lines 300-316).  sendOk states whether
net->send returned the full packet length.  Returns the C return value,
the client pointed to afterwards (none models a NULL argument), and the
packets handed to net->send. -/
def mqtt_client_publish (sendOk : Bool) (c? : Option MqttClient)
    (topic payload : List Nat) (qos : Nat) :
    Int × Option MqttClient × List (List Nat) :=
  match c? with
  | none => (-1, none, [])
  | some c =>
    if c.state ≠ .connected then (-1, some c, [])
    else
      let pid := if 0 < qos then c.packet_id else 0
      let c' := if 0 < qos then { c with packet_id := packet_id_succ c.packet_id }
        else c
      let pkt := pack_publish topic payload qos pid
      ((if sendOk then 0 else -1), some c', [pkt])

/-- mqtt_client_subscribe (mqtt.c lines 269-298).  After a full send
(ret == len) and only while sub_count < MQTT_MAX_SUBSCRIPTIONS (8), the
registry is scanned with strcmp against the given topic and, when no
entry matches, the topic is appended truncated by
strncpy(dst, topic, sizeof(dst) - 1) to its first 127 bytes. -/
def mqtt_client_subscribe (sendOk : Bool) (c? : Option MqttClient)
    (topic : List Nat) (qos : Nat) :
    Int × Option MqttClient × List (List Nat) :=
  match c? with
  | none => (-1, none, [])
  | some c =>
    if c.state ≠ .connected then (-1, some c, [])
    else
      let pkt := pack_subscribe topic qos c.packet_id
      let c1 := { c with packet_id := packet_id_succ c.packet_id }
      let c2 :=
        if sendOk then
          if c1.subscriptions.length < 8 then
            if c1.subscriptions.any (fun e => e.1 == topic) then c1
            else { c1 with
              subscriptions := c1.subscriptions ++ [(topic.take 127, qos)] }
          else c1
        else c1
      ((if sendOk then 0 else -1), some c2, [pkt])

/-- mqtt_client_is_connected (mqtt.c lines 318-320): the C expression
client && client->state == MQTT_STATE_CONNECTED as an int. -/
def mqtt_client_is_connected (c? : Option MqttClient) : Int :=
  match c? with
  | none => 0
  | some c => if c.state = .connected then 1 else 0

/-- The externally visible actions mqtt_client_destroy can take. -/
inductive DestroyAct where
  | join_thread
  | send_disconnect
  | net_close
  | sem_destroy
  | mutex_destroy
  | free_client
deriving DecidableEq, Repr

/-- mqtt_client_destroy (mqtt.c lines 245-267) as the sequence of actions
it performs; a NULL client returns immediately. -/
def mqtt_client_destroy (c? : Option MqttClient) : List DestroyAct :=
  match c? with
  | none => []
  | some c =>
    (if c.recv_thread then [DestroyAct.join_thread] else [])
      ++ (if c.socket.isSome then
            [DestroyAct.send_disconnect, DestroyAct.net_close] else [])
      ++ [DestroyAct.sem_destroy, DestroyAct.mutex_destroy,
          DestroyAct.free_client]

/-- The success/failure outcomes of the external calls mqtt_client_create
makes, in program order: os->malloc, os->mutex_create, os->sem_create,
net->connect, the CONNECT net->send (true iff it wrote the whole packet),
the net->recv result for CONNACK, and os->thread_create. -/
structure CreateEnv where
  mallocOk : Bool
  mutexOk : Bool
  semOk : Bool
  connectOk : Bool
  sendOk : Bool
  recvLen : Int
  recvBuf : List Nat
  threadOk : Bool
deriving DecidableEq, Repr

/-- The cleanup calls on the error paths of mqtt_client_create. -/
inductive CleanupAct where
  | net_disconnect
  | sem_destroy
  | mutex_destroy
  | free_client
deriving DecidableEq, Repr

/-- mqtt_client_create (mqtt.c lines 192-243): the returned handle (none
models the NULL returns) together with the cleanup actions of the goto
error chain that ran.  On success the client is zero-initialised except
for the recorded fields: state CONNECTED, packet_id 1, sub_count 0,
last_ping_time = os->get_time_ms(), running = 1, reader spawned. -/
def mqtt_client_create (env : CreateEnv) (cfg : MqttConfig) (now : Nat) :
    Option MqttClient × List CleanupAct :=
  if ¬env.mallocOk then (none, [])
  else if ¬env.mutexOk then (none, [.free_client])
  else if ¬env.semOk then (none, [.mutex_destroy, .free_client])
  else if ¬env.connectOk then (none, [.sem_destroy, .mutex_destroy, .free_client])
  else if ¬env.sendOk then
    (none, [.net_disconnect, .sem_destroy, .mutex_destroy, .free_client])
  else if ¬connack_ok env.recvLen env.recvBuf then
    (none, [.net_disconnect, .sem_destroy, .mutex_destroy, .free_client])
  else if ¬env.threadOk then
    (none, [.net_disconnect, .sem_destroy, .mutex_destroy, .free_client])
  else
    (some { config := cfg
            socket := some 0
            state := .connected
            packet_id := 1
            last_ping_time := now
            ping_sent_time := 0
            waiting_pingresp := false
            subscriptions := []
            running := true
            recv_thread := true }, [])

/-- The success/failure outcomes of the external calls mqtt_try_reconnect
makes: net->connect, every net->send in program order (index 0 is the
CONNECT send, index 1 + i the send of the SUBSCRIBE for registry entry i),
and the net->recv result for CONNACK. -/
structure ReconnEnv where
  connectOk : Bool
  sendOk : Nat → Bool
  recvLen : Int
  recvBuf : List Nat

/-- The resubscription loop of mqtt_try_reconnect (mqtt.c lines 342-346):
for each registry entry in order, pack_subscribe with the post-incremented
packet_id counter and send; stop at the first send that does not write the
whole packet.  Returns the packets handed to net->send, the final counter,
and whether every send succeeded. -/
def resub_loop (sendOk : Nat → Bool) :
    Nat → Nat → List (List Nat × Nat) → List (List Nat) × Nat × Bool
  | _, pid, [] => ([], pid, true)
  | idx, pid, (topic, qos) :: rest =>
    let pkt := pack_subscribe topic qos pid
    let pid' := packet_id_succ pid
    if sendOk idx then
      let r := resub_loop sendOk (idx + 1) pid' rest
      (pkt :: r.1, r.2)
    else ([pkt], pid', false)

/-- mqtt_try_reconnect (mqtt.c lines 322-360): the client afterwards, the
C return value, and the packets handed to net->send.  Every error path
after net->connect succeeded runs err_cleanup: net->disconnect and
socket = NULL; a failed net->connect leaves the NULL socket it assigned. -/
def mqtt_try_reconnect (env : ReconnEnv) (c : MqttClient) (now : Nat) :
    MqttClient × Int × List (List Nat) :=
  if ¬env.connectOk then ({ c with socket := none }, -1, [])
  else
    let cpkt := pack_connect c.config
    if ¬env.sendOk 0 then ({ c with socket := none }, -1, [cpkt])
    else if ¬connack_ok env.recvLen env.recvBuf then
      ({ c with socket := none }, -1, [cpkt])
    else
      let r := resub_loop env.sendOk 1 c.packet_id c.subscriptions
      if r.2.2 then
        ({ c with
            socket := some 0
            state := .connected
            packet_id := r.2.1
            last_ping_time := now
            waiting_pingresp := false }, 0, cpkt :: r.1)
      else
        ({ c with socket := none, packet_id := r.2.1 }, -1, cpkt :: r.1)

/-- One dispatch step of the reader loop (mqtt.c lines 443-467): given the
net->recv result (recv_len and the bytes placed in recv_buf) and the
current clock, the client afterwards and the (topic, payload) pair passed
to the message callback, if any.  recv_len < 0 closes the transport under
the mutex if still connected; recv_len == 0 (timeout) just continues;
otherwise the packet type is recv_buf[0] >> 4 and PINGRESP (13) or
PUBLISH (3) are handled, everything else is ignored. -/
def mqtt_dispatch (c : MqttClient) (recv_len : Int) (recv_buf : List Nat)
    (now : Nat) : MqttClient × Option (List Nat × List Nat) :=
  if recv_len < 0 then
    (if c.state = .connected then
        { c with state := .disconnected, socket := none }
      else c, none)
  else if recv_len = 0 then (c, none)
  else
    let ptype := recv_buf.getD 0 0 / 16
    if ptype = 13 then
      ({ c with last_ping_time := now, waiting_pingresp := false }, none)
    else if ptype = 3 then (c, mqtt_handle_publish recv_buf recv_len.toNat)
    else (c, none)

/-- The SUBSCRIBE packets mqtt_try_reconnect is specified to emit: one per
registry entry, in insertion order, with consecutively allocated packet
ids starting at the current counter. -/
def expected_resub : List (List Nat × Nat) → Nat → List (List Nat)
  | [], _ => []
  | (topic, qos) :: rest, pid =>
    pack_subscribe topic qos pid :: expected_resub rest (packet_id_succ pid)

/-- A concrete configuration used by the concrete-input theorems. -/
def sample_config : MqttConfig :=
  { client_id := [99]
    username := none
    password := none
    keepalive := 60
    clean_session := true }

/-- A concrete connected client as produced by a successful create. -/
def sample_client : MqttClient :=
  { config := sample_config
    socket := some 0
    state := .connected
    packet_id := 1
    last_ping_time := 0
    ping_sent_time := 0
    waiting_pingresp := false
    subscriptions := []
    running := true
    recv_thread := true }

/-- C9: every public operation tolerates a NULL client handle:
mqtt_client_destroy(NULL) performs nothing, mqtt_client_publish and
mqtt_client_subscribe return -1 without touching or sending anything,
and mqtt_client_is_connected returns 0. -/
theorem null_client_tolerated :
    mqtt_client_destroy none = [] ∧
    (∀ sendOk topic payload qos,
      mqtt_client_publish sendOk none topic payload qos = (-1, none, [])) ∧
    (∀ sendOk topic qos,
      mqtt_client_subscribe sendOk none topic qos = (-1, none, [])) ∧
    mqtt_client_is_connected none = 0 :=
  ⟨rfl, fun _ _ _ _ => rfl, fun _ _ _ => rfl, rfl⟩

/-- C10: a reader-loop iteration in which net->recv returns 0 (timeout)
while the client is Connected leaves the client record completely
unchanged (phase, socket, packet_id, last_ping_time, waiting_pingresp and
the subscription registry) and does not invoke the message callback. -/
theorem dispatch_timeout_is_noop (c : MqttClient) (buf : List Nat) (now : Nat)
    (_hconn : c.state = .connected) :
    mqtt_dispatch c 0 buf now = (c, none) := by
  simp [mqtt_dispatch]

/-- Witness for C10 on a concrete connected client. -/
theorem dispatch_timeout_is_noop_witness :
    sample_client.state = .connected ∧
    mqtt_dispatch sample_client 0 [48, 2, 0, 0] 5 = (sample_client, none) :=
  ⟨rfl, dispatch_timeout_is_noop sample_client [48, 2, 0, 0] 5 rfl⟩

lemma nth_packet_id_closed (n : Nat) : nth_packet_id n = (1 + n) % 65536 := by
  induction n with
  | zero => rfl
  | succ n ih =>
    unfold nth_packet_id at ih ⊢
    rw [Function.iterate_succ_apply', ih]
    unfold packet_id_succ
    omega

/-- A client whose counter has reached 0xFFFF. -/
def client_ffff : MqttClient :=
  { sample_client with packet_id := 65535 }

/-- The client after the SUBSCRIBE that allocates packet id 0xFFFF. -/
def client_after_ffff : MqttClient :=
  ((mqtt_client_subscribe true (some client_ffff) [97] 0).2.1).getD client_ffff

/-- C3 (code bug): the 16-bit counter starts at 1, but client->packet_id++
wraps 0xFFFF to 0 without skipping it: the 65536th allocation yields
packet id 0, and the SUBSCRIBE issued right after the one that carried
0xFFFF puts packet id 0 on the wire, contradicting the specified skip. -/
theorem packet_id_wraps_to_zero :
    nth_packet_id 0 = 1 ∧
    nth_packet_id 65534 = 65535 ∧
    nth_packet_id 65535 = 0 ∧
    (mqtt_client_subscribe true (some client_ffff) [97] 0).2.2
      = [pack_subscribe [97] 0 65535] ∧
    client_after_ffff.packet_id = 0 ∧
    (mqtt_client_subscribe true (some client_after_ffff) [98] 0).2.2
      = [pack_subscribe [98] 0 0] := by
  refine ⟨rfl, ?_, ?_, by decide, by decide, by decide⟩
  · rw [nth_packet_id_closed]
  · rw [nth_packet_id_closed]

/-- C1 (amended): only the PINGREQ path reacts to a short send by
transitioning to Disconnected and closing the transport; a failed PUBLISH
or SUBSCRIBE send returns -1 but leaves the connection state, the
transport handle (and, for subscribe, the registry) unchanged, so the
reader only reconnects after a later receive or ping failure. -/
theorem send_failure_effects (c : MqttClient) (now : Nat)
    (topic payload : List Nat) (qos : Nat)
    (hs : c.state = .connected)
    (hw : c.waiting_pingresp = false)
    (hdue : c.config.keepalive * 1000 / 2 ≤ sub32 now c.last_ping_time) :
    ((mqtt_send_ping false c now).1.state = .disconnected ∧
      (mqtt_send_ping false c now).1.socket = none ∧
      (mqtt_send_ping false c now).2.1 = -1) ∧
    ((mqtt_client_publish false (some c) topic payload qos).1 = -1 ∧
      (mqtt_client_publish false (some c) topic payload qos).2.1.map
        (fun x => (x.state, x.socket)) = some (c.state, c.socket)) ∧
    ((mqtt_client_subscribe false (some c) topic qos).1 = -1 ∧
      (mqtt_client_subscribe false (some c) topic qos).2.1.map
        (fun x => (x.state, x.socket, x.subscriptions))
        = some (c.state, c.socket, c.subscriptions)) := by
  have hdue' : ¬ sub32 now c.last_ping_time < c.config.keepalive * 1000 / 2 := by
    omega
  refine ⟨?_, ?_, ?_⟩
  · simp [mqtt_send_ping, hw, hdue']
  · by_cases hq : 0 < qos <;> simp [mqtt_client_publish, hs, hq]
  · simp [mqtt_client_subscribe, hs]

/-- Witness for C1 (amended) on a concrete connected client at a due
keepalive instant. -/
theorem send_failure_effects_witness :
    ((mqtt_send_ping false sample_client 30000).1.state = .disconnected ∧
      (mqtt_send_ping false sample_client 30000).1.socket = none ∧
      (mqtt_send_ping false sample_client 30000).2.1 = -1) ∧
    ((mqtt_client_publish false (some sample_client) [97] [1] 0).1 = -1 ∧
      (mqtt_client_publish false (some sample_client) [97] [1] 0).2.1.map
        (fun x => (x.state, x.socket))
        = some (sample_client.state, sample_client.socket)) ∧
    ((mqtt_client_subscribe false (some sample_client) [97] 0).1 = -1 ∧
      (mqtt_client_subscribe false (some sample_client) [97] 0).2.1.map
        (fun x => (x.state, x.socket, x.subscriptions))
        = some (sample_client.state, sample_client.socket,
            sample_client.subscriptions)) :=
  send_failure_effects sample_client 30000 [97] [1] 0 rfl rfl (by decide)

/-- Counterexample to C1 as stated: on this connected client a PUBLISH
whose send writes nothing does not transition to Disconnected with a
closed transport — the state stays Connected and the socket stays open. -/
theorem publish_send_failure_counterexample :
    ¬ ((mqtt_client_publish false (some sample_client) [97] [1] 0).2.1.map
        (fun x => (x.state, x.socket))
        = some (MqttState.disconnected, none)) := by
  decide

/-- C5: with K = keepalive seconds * 1000, the keepalive step attempts a
PINGREQ exactly when it is not awaiting a ping response and
now - last_ping_time >= K/2 in 32-bit arithmetic (recording
ping_sent_time = now and setting the flag when the send succeeds), and it
declares the link dead (Disconnected, transport closed, -1) exactly when
it is awaiting a response and now - ping_sent_time >= K/2; and the 32-bit
subtraction recovers the elapsed interval across tick wraparound. -/
theorem keepalive_timing (sendOk : Bool) (c : MqttClient) (now : Nat)
    (hs : c.state = .connected) :
    ((mqtt_send_ping sendOk c now).2.2 ≠ [] ↔
      (c.waiting_pingresp = false ∧
        c.config.keepalive * 1000 / 2 ≤ sub32 now c.last_ping_time)) ∧
    ((mqtt_send_ping sendOk c now).2.2 ≠ [] →
      (mqtt_send_ping sendOk c now).2.2 = [pack_pingreq]) ∧
    (c.waiting_pingresp = false →
      c.config.keepalive * 1000 / 2 ≤ sub32 now c.last_ping_time →
      sendOk = true →
      (mqtt_send_ping sendOk c now).1.ping_sent_time = now ∧
        (mqtt_send_ping sendOk c now).1.waiting_pingresp = true) ∧
    ((c.waiting_pingresp = true ∧
        c.config.keepalive * 1000 / 2 ≤ sub32 now c.ping_sent_time) ↔
      ((mqtt_send_ping sendOk c now).1.state = .disconnected ∧
        (mqtt_send_ping sendOk c now).2.2 = [])) ∧
    (c.waiting_pingresp = true →
      c.config.keepalive * 1000 / 2 ≤ sub32 now c.ping_sent_time →
      (mqtt_send_ping sendOk c now).1.socket = none ∧
        (mqtt_send_ping sendOk c now).2.1 = -1) ∧
    (∀ b e, b < 2 ^ 32 → e < 2 ^ 32 → sub32 ((b + e) % 2 ^ 32) b = e) := by
  have hwrap : ∀ b e, b < 2 ^ 32 → e < 2 ^ 32 → sub32 ((b + e) % 2 ^ 32) b = e := by
    intro b e hb he
    unfold sub32
    omega
  cases hw : c.waiting_pingresp
  · by_cases hdue : c.config.keepalive * 1000 / 2 ≤ sub32 now c.last_ping_time
    · have hdue' : ¬ sub32 now c.last_ping_time < c.config.keepalive * 1000 / 2 := by
        omega
      cases sendOk <;> simp [mqtt_send_ping, hw, hdue, hdue', hs] <;>
        (intro b e hb he; unfold sub32; omega)
    · have hdue' : sub32 now c.last_ping_time < c.config.keepalive * 1000 / 2 := by
        omega
      cases sendOk <;> simp [mqtt_send_ping, hw, hdue, hdue', hs] <;>
        (intro b e hb he; unfold sub32; omega)
  · by_cases hdue : c.config.keepalive * 1000 / 2 ≤ sub32 now c.ping_sent_time <;>
      cases sendOk <;> simp [mqtt_send_ping, hw, hdue, hs] <;>
        (intro b e hb he; unfold sub32; omega)

/-- Witness for C5 on a concrete connected client. -/
theorem keepalive_timing_witness :
    (mqtt_send_ping true sample_client 30000).2.2 ≠ [] ↔
      (sample_client.waiting_pingresp = false ∧
        sample_client.config.keepalive * 1000 / 2
          ≤ sub32 30000 sample_client.last_ping_time) :=
  (keepalive_timing true sample_client 30000 rfl).1

lemma any_beq_iff (l : List (List Nat × Nat)) (t : List Nat) :
    (l.any fun e => e.1 == t) = true ↔ t ∈ l.map Prod.fst := by
  simp [List.any_eq_true, List.mem_map, beq_iff_eq]

/-- C8 (amended): for topic filters of at most 127 bytes (the at-your-
own-risk input constraint; strncpy truncates longer ones on store), a
subscribe whose send succeeds returns 0 and preserves the registry
invariants: at most 8 entries, no byte-wise duplicate filters; a topic
already present leaves the registry unchanged, a new topic is appended
(in insertion order) when fewer than 8 entries exist, and a distinct
topic beyond 8 entries is still sent (return 0) but not added. -/
theorem subscribe_registry_invariant (c : MqttClient) (topic : List Nat)
    (qos : Nat)
    (hs : c.state = .connected)
    (hlen : topic.length ≤ 127)
    (hcap : c.subscriptions.length ≤ 8)
    (hnodup : (c.subscriptions.map Prod.fst).Nodup) :
    (mqtt_client_subscribe true (some c) topic qos).1 = 0 ∧
    ∀ c', (mqtt_client_subscribe true (some c) topic qos).2.1 = some c' →
      c'.subscriptions.length ≤ 8 ∧
      (c'.subscriptions.map Prod.fst).Nodup ∧
      (topic ∈ c.subscriptions.map Prod.fst →
        c'.subscriptions = c.subscriptions) ∧
      (topic ∉ c.subscriptions.map Prod.fst → c.subscriptions.length < 8 →
        c'.subscriptions = c.subscriptions ++ [(topic, qos)]) ∧
      (c.subscriptions.length = 8 → c'.subscriptions = c.subscriptions) := by
  have htake : topic.take 127 = topic := List.take_of_length_le hlen
  constructor
  · simp [mqtt_client_subscribe, hs]
  · intro c' hc'
    simp only [mqtt_client_subscribe, hs, ne_eq, not_true_eq_false, if_false,
      ite_true, ite_false, Option.some.injEq, reduceIte] at hc'
    subst hc'
    by_cases hfull : c.subscriptions.length < 8
    · by_cases hmem : topic ∈ c.subscriptions.map Prod.fst
      · have hany : (c.subscriptions.any fun e => e.1 == topic) = true :=
          (any_beq_iff _ _).mpr hmem
        rw [if_pos hfull, if_pos hany]
        exact ⟨hcap, hnodup, fun _ => rfl, fun habs _ => absurd hmem habs,
          fun _ => rfl⟩
      · have hany : ¬ (c.subscriptions.any fun e => e.1 == topic) = true := by
          rw [any_beq_iff]
          exact hmem
        rw [if_pos hfull, if_neg hany, htake]
        refine ⟨?_, ?_, fun hmem' => absurd hmem' hmem, fun _ _ => rfl,
          fun h8 => by omega⟩
        · show (c.subscriptions ++ [(topic, qos)]).length ≤ 8
          simp only [List.length_append, List.length_cons, List.length_nil]
          omega
        · show ((c.subscriptions ++ [(topic, qos)]).map Prod.fst).Nodup
          simp only [List.map_append, List.map_cons, List.map_nil]
          rw [List.nodup_append]
          exact ⟨hnodup, List.nodup_singleton _, by
            intro a ha hb
            simp only [List.mem_singleton] at hb
            subst hb
            exact hmem ha⟩
    · rw [if_neg hfull]
      exact ⟨hcap, hnodup, fun _ => rfl, fun _ hlt => absurd hlt hfull,
        fun _ => rfl⟩

/-- Witness for C8 (amended): on a client with one registered topic,
subscribing to a new 1-byte topic appends it. -/
theorem subscribe_registry_invariant_witness :
    (mqtt_client_subscribe true (some { sample_client with
        subscriptions := [([97], 0)] }) [98] 1).1 = 0 ∧
    ∀ c', (mqtt_client_subscribe true (some { sample_client with
        subscriptions := [([97], 0)] }) [98] 1).2.1 = some c' →
      c'.subscriptions.length ≤ 8 ∧
      (c'.subscriptions.map Prod.fst).Nodup ∧
      ([98] ∈ ([([97], 0)] : List (List Nat × Nat)).map Prod.fst →
        c'.subscriptions = [([97], 0)]) ∧
      ([98] ∉ ([([97], 0)] : List (List Nat × Nat)).map Prod.fst →
        ([([97], 0)] : List (List Nat × Nat)).length < 8 →
        c'.subscriptions = [([97], 0)] ++ [([98], 1)]) ∧
      (([([97], 0)] : List (List Nat × Nat)).length = 8 →
        c'.subscriptions = [([97], 0)]) :=
  subscribe_registry_invariant
    { sample_client with subscriptions := [([97], 0)] } [98] 1
    rfl (by decide) (by decide) (by decide)

/-- A topic filter longer than the 127-byte storage bound. -/
def long_topic : List Nat :=
  List.replicate 128 97

/-- The registry after subscribing twice to the same 128-byte topic. -/
def reg_after_two_long : MqttClient :=
  ((mqtt_client_subscribe true
      ((mqtt_client_subscribe true (some sample_client) long_topic 0).2.1)
      long_topic 0).2.1).getD sample_client

/-- Counterexample to C8 as stated: subscribing twice to one 128-byte
topic stores its 127-byte truncation twice, so the registry holds two
byte-wise equal topic filters. -/
theorem registry_duplicate_counterexample :
    ¬ (reg_after_two_long.subscriptions.map Prod.fst).Nodup := by
  decide

/-- Core of the PUBLISH round trip: a packet laid out as pack_publish
lays it out (first byte 48 + qos * 2, remaining length, topic length,
topic, packet-id bytes pidb, payload) decodes through the receive-side
handler to exactly the encoded topic and payload, provided the topic is
shorter than 128 bytes and the remaining length fits in two bytes. -/
lemma publish_roundtrip_core (topic payload pidb : List Nat) (qos : Nat)
    (ht : topic.length < 128) (hq4 : qos < 4)
    (hpidb : pidb.length = if 0 < qos then 2 else 0)
    (hrem : 2 + topic.length + payload.length + pidb.length < 16384) :
    mqtt_handle_publish
      ((48 + qos * 2) ::
        (encode_remaining_length
            (2 + topic.length + payload.length + pidb.length)
          ++ ([topic.length / 256 % 256, topic.length % 256]
            ++ (topic ++ (pidb ++ payload)))))
      ((48 + qos * 2) ::
        (encode_remaining_length
            (2 + topic.length + payload.length + pidb.length)
          ++ ([topic.length / 256 % 256, topic.length % 256]
            ++ (topic ++ (pidb ++ payload))))).length
      = some (topic, payload) := by
  set tl := topic.length with htl
  set pl := payload.length with hpl
  set k := pidb.length with hk
  set rem := 2 + tl + pl + k with hremdef
  set enc := encode_remaining_length rem with henc
  set rest := [tl / 256 % 256, tl % 256] ++ (topic ++ (pidb ++ payload))
    with hrest
  set B := (48 + qos * 2) :: (enc ++ rest) with hB
  have henclen : enc.length ≤ 2 := by
    rw [henc]
    refine encode_length_le 1 rem ?_
    have h2 : (128 : Nat) ^ (1 + 1) = 16384 := by norm_num
    omega
  have hdrop1 : B.drop 1 = enc ++ rest := by
    rw [hB]
    rfl
  have hdec : decode_remaining_length (enc ++ rest) = some (rem, enc.length) := by
    rw [henc]
    have h := decode_loop_of_encode rem rest 1 0 0 (by
      rw [← henc]
      omega)
    unfold decode_remaining_length
    simpa using h
  have hdropA : B.drop (1 + enc.length) = rest := by
    have h1 : (1 : Nat) + enc.length = enc.length + 1 := by omega
    rw [hB, h1, List.drop_succ_cons, List.drop_left]
  have hg0 : rest.getD 0 0 = tl / 256 % 256 := by
    rw [hrest]
    rfl
  have hg1 : rest.getD 1 0 = tl % 256 := by
    rw [hrest]
    rfl
  have hdropB : B.drop (1 + enc.length + 2) = topic ++ (pidb ++ payload) := by
    have h1 : B.drop (1 + enc.length + 2) = (B.drop (1 + enc.length)).drop 2 := by
      rw [List.drop_drop]
    rw [h1, hdropA, hrest]
    rfl
  have hb0 : B.getD 0 0 = 48 + qos * 2 := by
    rw [hB]
    rfl
  have hqv : (48 + qos * 2) / 2 % 4 = qos := by omega
  have hdl1 : (topic ++ (pidb ++ payload)).drop tl = pidb ++ payload := by
    rw [htl]
    exact List.drop_left _ _
  have hdl2 : (pidb ++ payload).drop k = payload := by
    rw [hk]
    exact List.drop_left _ _
  have hdropC : B.drop (1 + enc.length + 2 + tl + k) = payload := by
    have h1 : B.drop (1 + enc.length + 2 + tl + k)
        = (B.drop (1 + enc.length + 2)).drop (tl + k) := by
      rw [List.drop_drop]
      congr 1
      omega
    have h2 : (topic ++ (pidb ++ payload)).drop (tl + k)
        = ((topic ++ (pidb ++ payload)).drop tl).drop k := by
      rw [List.drop_drop]
    rw [h1, hdropB, h2, hdl1, hdl2]
  have htake_topic : (topic ++ (pidb ++ payload)).take tl = topic := by
    rw [htl]
    exact List.take_left _ _
  have hBlen : B.length = 1 + enc.length + 2 + tl + k + pl := by
    rw [hB, hrest, htl, hpl, hk]
    simp only [List.length_cons, List.length_append, List.length_nil]
    omega
  have htakepl : payload.take pl = payload := by
    rw [hpl]
    exact List.take_length payload
  simp only [mqtt_handle_publish, hdrop1, hdec]
  simp only [mqtt_handle_publish_body]
  rw [hdropA, hg0, hg1]
  rw [show tl / 256 % 256 * 256 + tl % 256 = tl from by omega]
  rw [if_neg (by omega : ¬ 128 ≤ tl)]
  rw [hb0, hqv, ← hpidb, hdropB, htake_topic, hdropC, hBlen]
  rw [show 1 + enc.length + 2 + tl + k + pl - (1 + enc.length + 2 + tl + k)
      = pl from by omega]
  rw [htakepl]

/-- C4 (amended): for every topic shorter than 128 bytes, qos in {0,1},
and payload small enough that the encoded PUBLISH packet fits the
1024-byte buffer, the receive-side PUBLISH handler applied to the bytes
produced by pack_publish invokes the callback with exactly the encoded
topic and payload (the qos bits steer the packet-id skip, so the payload
is recovered for both qos values); topics of 128 bytes or more are
dropped by the handler without invoking the callback. -/
theorem publish_roundtrip (topic payload : List Nat) (qos pid : Nat)
    (hq : qos ≤ 1) (ht : topic.length < 128)
    (hsize : (pack_publish topic payload qos pid).length ≤ 1024) :
    mqtt_handle_publish (pack_publish topic payload qos pid)
      (pack_publish topic payload qos pid).length = some (topic, payload) := by
  by_cases hq0 : 0 < qos
  · have hpack : pack_publish topic payload qos pid
        = (48 + qos * 2) ::
          (encode_remaining_length (2 + topic.length + payload.length + 2)
            ++ ([topic.length / 256 % 256, topic.length % 256]
              ++ (topic ++ ([pid / 256 % 256, pid % 256] ++ payload)))) := by
      simp only [pack_publish, if_pos hq0, List.append_assoc]
    rw [hpack] at hsize ⊢
    refine publish_roundtrip_core topic payload [pid / 256 % 256, pid % 256]
      qos ht (by omega) (by simp [hq0]) ?_
    simp only [List.length_cons, List.length_append, List.length_nil] at hsize ⊢
    omega
  · have hpack : pack_publish topic payload qos pid
        = (48 + qos * 2) ::
          (encode_remaining_length (2 + topic.length + payload.length + 0)
            ++ ([topic.length / 256 % 256, topic.length % 256]
              ++ (topic ++ (([] : List Nat) ++ payload)))) := by
      simp only [pack_publish, if_neg hq0, List.append_assoc]
    rw [hpack] at hsize ⊢
    refine publish_roundtrip_core topic payload [] qos ht (by omega)
      (by simp [hq0]) ?_
    simp only [List.length_cons, List.length_append, List.length_nil] at hsize ⊢
    omega

/-- Witness for C4 (amended) on a concrete topic, payload and packet id
with qos 1. -/
theorem publish_roundtrip_witness :
    mqtt_handle_publish (pack_publish [97, 47, 98] [1, 2, 3] 1 77)
      (pack_publish [97, 47, 98] [1, 2, 3] 1 77).length
      = some ([97, 47, 98], [1, 2, 3]) :=
  publish_roundtrip [97, 47, 98] [1, 2, 3] 1 77 (by norm_num) (by decide)
    (by decide)

/-- Counterexample to C4 as stated: a 128-byte topic with an empty
payload satisfies the claimed size bound, but the receive handler drops
the packet (the callback is never invoked) because the topic does not
fit its 128-byte topic buffer. -/
theorem publish_oversize_topic_counterexample :
    mqtt_handle_publish (pack_publish (List.replicate 128 97) [] 0 0)
      (pack_publish (List.replicate 128 97) [] 0 0).length = none := by
  decide

lemma resub_loop_all_ok (sendOk : Nat → Bool) :
    ∀ (subs : List (List Nat × Nat)) (idx pid : Nat), pid < 65536 →
      (∀ i, i < subs.length → sendOk (idx + i) = true) →
      resub_loop sendOk idx pid subs
        = (expected_resub subs pid, (pid + subs.length) % 65536, true) := by
  intro subs
  induction subs with
  | nil =>
    intro idx pid hpid h
    simp [resub_loop, expected_resub, Nat.mod_eq_of_lt hpid]
  | cons hd rest ih =>
    intro idx pid hpid h
    obtain ⟨topic, qos⟩ := hd
    simp only [resub_loop]
    rw [if_pos (by simpa using h 0 (by simp))]
    rw [ih (idx + 1) (packet_id_succ pid) (by unfold packet_id_succ; omega)
      (fun i hi => by
        have hrw : idx + 1 + i = idx + (i + 1) := by omega
        rw [hrw]
        exact h (i + 1) (by simp only [List.length_cons]; omega))]
    simp only [expected_resub, Prod.mk.injEq, List.length_cons]
    refine ⟨trivial, ?_, trivial⟩
    unfold packet_id_succ
    omega

lemma resub_loop_ok_iff (sendOk : Nat → Bool) :
    ∀ (subs : List (List Nat × Nat)) (idx pid : Nat),
      (resub_loop sendOk idx pid subs).2.2 = true ↔
        ∀ i, i < subs.length → sendOk (idx + i) = true := by
  intro subs
  induction subs with
  | nil =>
    intro idx pid
    simp [resub_loop]
  | cons hd rest ih =>
    intro idx pid
    obtain ⟨topic, qos⟩ := hd
    simp only [resub_loop]
    by_cases hs : sendOk idx
    · rw [if_pos hs]
      rw [show (pack_subscribe topic qos pid
            :: (resub_loop sendOk (idx + 1) (packet_id_succ pid) rest).1,
          (resub_loop sendOk (idx + 1) (packet_id_succ pid) rest).2).2.2
          = (resub_loop sendOk (idx + 1) (packet_id_succ pid) rest).2.2 from rfl]
      rw [ih (idx + 1) (packet_id_succ pid)]
      constructor
      · intro h i hi
        cases i with
        | zero => simpa using hs
        | succ i =>
          have hrw : idx + (i + 1) = idx + 1 + i := by omega
          rw [hrw]
          exact h i (by simp only [List.length_cons] at hi; omega)
      · intro h i hi
        have hrw : idx + 1 + i = idx + (i + 1) := by omega
        rw [hrw]
        exact h (i + 1) (by simp only [List.length_cons]; omega)
    · rw [if_neg hs]
      simp only [List.length_cons]
      constructor
      · intro h
        cases h
      · intro h
        exact absurd (by simpa using h 0 (by omega)) hs

lemma expected_resub_getD :
    ∀ (subs : List (List Nat × Nat)) (pid : Nat), pid < 65536 →
      ∀ i, i < subs.length →
        (expected_resub subs pid).getD i []
          = pack_subscribe (subs.getD i ([], 0)).1 (subs.getD i ([], 0)).2
              ((pid + i) % 65536) := by
  intro subs
  induction subs with
  | nil =>
    intro pid hpid i hi
    simp at hi
  | cons hd rest ih =>
    intro pid hpid i hi
    obtain ⟨topic, qos⟩ := hd
    cases i with
    | zero =>
      simp only [expected_resub, List.getD_cons_zero]
      rw [show (pid + 0) % 65536 = pid from by omega]
    | succ i =>
      simp only [expected_resub, List.getD_cons_succ]
      rw [ih (packet_id_succ pid) (by unfold packet_id_succ; omega) i
        (by simp only [List.length_cons] at hi; omega)]
      congr 1
      unfold packet_id_succ
      omega

/-- C6: from Disconnected, once transport connect, the CONNECT send and
the CONNACK validation succeed, mqtt_try_reconnect sends one SUBSCRIBE
per registry entry in insertion order, each with a freshly allocated
consecutive packet id; when all sends succeed it returns 0 with state
Connected and waiting_pingresp cleared, and when any step fails it
returns -1 with the state still Disconnected and the socket closed and
set to null. -/
theorem reconnect_resubscribes (env : ReconnEnv) (c : MqttClient) (now : Nat)
    (hstate : c.state = .disconnected) (hpid : c.packet_id < 65536) :
    ((env.connectOk = true ∧ env.sendOk 0 = true ∧
        connack_ok env.recvLen env.recvBuf = true ∧
        (∀ i, i < c.subscriptions.length → env.sendOk (1 + i) = true)) →
      ((mqtt_try_reconnect env c now).2.1 = 0 ∧
        (mqtt_try_reconnect env c now).1.state = .connected ∧
        (mqtt_try_reconnect env c now).1.waiting_pingresp = false ∧
        (mqtt_try_reconnect env c now).2.2
          = pack_connect c.config
              :: expected_resub c.subscriptions c.packet_id ∧
        (mqtt_try_reconnect env c now).1.packet_id
          = (c.packet_id + c.subscriptions.length) % 65536)) ∧
    (¬ (env.connectOk = true ∧ env.sendOk 0 = true ∧
        connack_ok env.recvLen env.recvBuf = true ∧
        (∀ i, i < c.subscriptions.length → env.sendOk (1 + i) = true)) →
      ((mqtt_try_reconnect env c now).2.1 = -1 ∧
        (mqtt_try_reconnect env c now).1.state = .disconnected ∧
        (mqtt_try_reconnect env c now).1.socket = none)) ∧
    (∀ i, i < c.subscriptions.length →
      (expected_resub c.subscriptions c.packet_id).getD i []
        = pack_subscribe (c.subscriptions.getD i ([], 0)).1
            (c.subscriptions.getD i ([], 0)).2
            ((c.packet_id + i) % 65536)) := by
  refine ⟨?_, ?_, expected_resub_getD c.subscriptions c.packet_id hpid⟩
  · rintro ⟨hc, hs0, hca, hsubs⟩
    have hloop := resub_loop_all_ok env.sendOk c.subscriptions 1 c.packet_id
      hpid hsubs
    simp [mqtt_try_reconnect, hc, hs0, hca, hloop]
  · intro hfail
    by_cases hc : env.connectOk
    · by_cases hs0 : env.sendOk 0
      · by_cases hca : connack_ok env.recvLen env.recvBuf
        · have hok : (resub_loop env.sendOk 1 c.packet_id
              c.subscriptions).2.2 = false := by
            cases hres : (resub_loop env.sendOk 1 c.packet_id
                c.subscriptions).2.2
            · rfl
            · exact absurd ⟨hc, hs0, hca,
                (resub_loop_ok_iff env.sendOk c.subscriptions 1
                  c.packet_id).mp hres⟩ hfail
          simp [mqtt_try_reconnect, hc, hs0, hca, hok, hstate]
        · simp [mqtt_try_reconnect, hc, hs0, hca, hstate]
      · simp [mqtt_try_reconnect, hc, hs0, hstate]
    · simp [mqtt_try_reconnect, hc, hstate]

/-- A reconnect environment in which every external call succeeds and
the broker answers with an accepting CONNACK. -/
def reconn_env_ok : ReconnEnv :=
  { connectOk := true
    sendOk := fun _ => true
    recvLen := 4
    recvBuf := [32, 2, 0, 0] }

/-- A disconnected client with one remembered subscription. -/
def disc_client : MqttClient :=
  { sample_client with
      state := .disconnected
      socket := none
      subscriptions := [([97], 0)] }

/-- Witness for C6 on a concrete disconnected client with one
subscription and an all-success environment. -/
theorem reconnect_resubscribes_witness :
    (mqtt_try_reconnect reconn_env_ok disc_client 7).2.1 = 0 ∧
    (mqtt_try_reconnect reconn_env_ok disc_client 7).1.state = .connected ∧
    (mqtt_try_reconnect reconn_env_ok disc_client 7).1.waiting_pingresp
      = false ∧
    (mqtt_try_reconnect reconn_env_ok disc_client 7).2.2
      = pack_connect disc_client.config
          :: expected_resub disc_client.subscriptions disc_client.packet_id ∧
    (mqtt_try_reconnect reconn_env_ok disc_client 7).1.packet_id
      = (disc_client.packet_id + disc_client.subscriptions.length) % 65536 :=
  (reconnect_resubscribes reconn_env_ok disc_client 7 rfl (by decide)).1
    ⟨rfl, rfl, by decide, fun i hi => rfl⟩

/-- C7: both at create and at reconnect, the handshake succeeds only if
the single packet read after CONNECT is at least 4 bytes, carries the
CONNACK type in the high nibble of byte 0, and has return code 0 in
byte 3; any other received contents make create return null, running the
full cleanup chain when the failure is detected at the CONNACK check,
and make the reconnect attempt return -1. -/
theorem connack_gate (env : CreateEnv) (cfg : MqttConfig) (now : Nat)
    (renv : ReconnEnv) (c : MqttClient) (now2 : Nat) :
    (∀ cl, (mqtt_client_create env cfg now).1 = some cl →
      connack_ok env.recvLen env.recvBuf = true) ∧
    (connack_ok env.recvLen env.recvBuf = false →
      (mqtt_client_create env cfg now).1 = none) ∧
    (env.mallocOk = true → env.mutexOk = true → env.semOk = true →
      env.connectOk = true → env.sendOk = true →
      connack_ok env.recvLen env.recvBuf = false →
      mqtt_client_create env cfg now
        = (none, [.net_disconnect, .sem_destroy, .mutex_destroy,
            .free_client])) ∧
    ((mqtt_try_reconnect renv c now2).2.1 = 0 →
      connack_ok renv.recvLen renv.recvBuf = true) ∧
    (connack_ok renv.recvLen renv.recvBuf = false →
      (mqtt_try_reconnect renv c now2).2.1 = -1) := by
  have h2 : connack_ok env.recvLen env.recvBuf = false →
      (mqtt_client_create env cfg now).1 = none := by
    intro hca
    by_cases h1 : env.mallocOk <;> by_cases hmx : env.mutexOk <;>
      by_cases hse : env.semOk <;> by_cases hco : env.connectOk <;>
      by_cases hsd : env.sendOk <;> by_cases hth : env.threadOk <;>
      simp [mqtt_client_create, h1, hmx, hse, hco, hsd, hth, hca]
  have h5 : connack_ok renv.recvLen renv.recvBuf = false →
      (mqtt_try_reconnect renv c now2).2.1 = -1 := by
    intro hca
    by_cases hco : renv.connectOk <;> by_cases hsd : renv.sendOk 0 <;>
      simp [mqtt_try_reconnect, hco, hsd, hca]
  refine ⟨?_, h2, ?_, ?_, h5⟩
  · intro cl hcl
    cases hca : connack_ok env.recvLen env.recvBuf
    · rw [h2 hca] at hcl
      cases hcl
    · rfl
  · intro h1 hmx hse hco hsd hca
    simp [mqtt_client_create, h1, hmx, hse, hco, hsd, hca]
  · intro h0
    cases hca : connack_ok renv.recvLen renv.recvBuf
    · rw [h5 hca] at h0
      cases h0
    · rfl

/-- A create environment in which every resource and transport call
succeeds but the broker answers CONNACK with return code 1. -/
def bad_connack_env : CreateEnv :=
  { mallocOk := true
    mutexOk := true
    semOk := true
    connectOk := true
    sendOk := true
    recvLen := 4
    recvBuf := [32, 2, 0, 1]
    threadOk := true }

/-- Witness for C7: a refused CONNACK makes create return null after the
full cleanup chain. -/
theorem connack_gate_witness :
    mqtt_client_create bad_connack_env sample_config 0
      = (none, [.net_disconnect, .sem_destroy, .mutex_destroy,
          .free_client]) :=
  (connack_gate bad_connack_env sample_config 0 reconn_env_ok
      sample_client 0).2.2.1 rfl rfl rfl rfl rfl (by decide)

end LibMqtt
